import Mathlib

/-!
Shallow embedding of the core of the tiny-http HTTP/1.x server library
(request body framing, response emission, pipelining serialization,
keep-alive decision), together with proofs checking the natural-language
specification against the code.

Modelling conventions:
* ASCII byte strings are modelled as Lean `String` at the interfaces and
  `List Char` inside the computations (all the protocol data is ASCII,
  enforced by the `AsciiString` types of the Rust code).
* Rust `usize` values are modelled as `Nat`; the overflow check of
  `usize::from_str` is modelled with an explicit `2 ^ 64` bound.
* Rust `f32` quality weights (`q=...`) are modelled as exact scaled
  decimals `num / 10 ^ den10` (`QVal` below); `inf`/`NaN` spellings are
  outside the model.  HTTP quality weights are short decimals, for which
  f32 parsing and comparison agree with the exact values.
* Blocking I/O is modelled by explicit state or by traces of events;
  fallible operations return `Except`.
-/

namespace TinyHttp

/-- ASCII lowercasing of one character, the model of Rust's
`char::to_ascii_lowercase`. -/
def lower_char (c : Char) : Char :=
  if 'A' ≤ c && c ≤ 'Z' then Char.ofNat (c.toNat + 32) else c

/-- ASCII lowercasing of a character list (`str::to_ascii_lowercase`). -/
def lower_chars (cs : List Char) : List Char :=
  cs.map lower_char

/-- Case-insensitive ASCII string equality, the model of Rust's
`str::eq_ignore_ascii_case` (used by `HeaderField::equiv` in
`src/common.rs`). -/
def eq_ignore_ascii_case (a b : String) : Bool :=
  lower_chars a.toList == lower_chars b.toList

/-- Boolean prefix test on character lists (`str::starts_with`). -/
def list_is_pre : List Char → List Char → Bool
  | [], _ => true
  | _ :: _, [] => false
  | a :: as_, b :: bs => a == b && list_is_pre as_ bs

/-- Boolean substring containment on character lists, the model of Rust's
`str::contains` with a string pattern. -/
def list_contains_sub : List Char → List Char → Bool
  | hay, needle =>
    if list_is_pre needle hay then true
    else
      match hay with
      | [] => false
      | _ :: t => list_contains_sub t needle

/-- Substring containment on strings (`haystack.contains(needle)`). -/
def str_contains (hay needle : String) : Bool :=
  list_contains_sub hay.toList needle.toList

/-- Split of a character list on a separator character, the model of
Rust's `str::split(sep)` (an empty input yields one empty piece). -/
def split_char (sep : Char) : List Char → List (List Char)
  | [] => [[]]
  | c :: rest =>
    if c == sep then [] :: split_char sep rest
    else
      match split_char sep rest with
      | g :: gs => (c :: g) :: gs
      | [] => [[c]]

/-- Model of `str::trim_left` (leading whitespace removed). -/
def trim_left_chars (cs : List Char) : List Char :=
  cs.dropWhile Char.isWhitespace

/-- Model of `str::trim` (leading and trailing whitespace removed). -/
def trim_chars (cs : List Char) : List Char :=
  ((cs.dropWhile Char.isWhitespace).reverse.dropWhile Char.isWhitespace).reverse

/-- Numeric value of a list of decimal digit characters. -/
def digits_to_nat (cs : List Char) : Nat :=
  cs.foldl (fun a c => a * 10 + (c.toNat - '0'.toNat)) 0

/-- Model of `<usize as FromStr>::from_str`: an optional leading `+`
followed by at least one decimal digit; values that do not fit in 64 bits
overflow and fail. -/
def parse_usize (s : String) : Option Nat :=
  let cs := match s.toList with
    | '+' :: rest => rest
    | cs => cs
  if cs ≠ [] ∧ cs.all Char.isDigit then
    let v := digits_to_nat cs
    if v < 2 ^ 64 then some v else none
  else none

/-- Model of `common::Header`: a header field name and an ASCII value. -/
structure Header where
  field : String
  value : String
  deriving DecidableEq, Repr

/-- Model of `headers.iter().find(|h| h.field.equiv(&name))`: the first
header whose field matches `name` case-insensitively. -/
def find_header (headers : List Header) (name : String) : Option Header :=
  headers.find? fun h => eq_ignore_ascii_case h.field name

/-- Exact model of an f32 quality weight: the value `num / 10 ^ den10`. -/
structure QVal where
  num : Int
  den10 : Nat
  deriving DecidableEq, Repr

/-- The quality weight `1.0`. -/
def qval_one : QVal := ⟨1, 0⟩

/-- Comparison `a <= b` of two quality weights (cross multiplication by
the power-of-ten denominators). -/
def QVal.le (a b : QVal) : Bool :=
  a.num * (10 : Int) ^ b.den10 ≤ b.num * (10 : Int) ^ a.den10

/-- Comparison `a < b` of two quality weights. -/
def QVal.lt (a b : QVal) : Bool :=
  a.num * (10 : Int) ^ b.den10 < b.num * (10 : Int) ^ a.den10

/-- Splits a character list around the first character satisfying `p`;
returns `none` when no such character exists. -/
def split_first (p : Char → Bool) : List Char → Option (List Char × List Char)
  | [] => none
  | c :: rest =>
    if p c then some ([], rest)
    else (split_first p rest).map fun q => (c :: q.1, q.2)

/-- Parse of the mantissa of a decimal number (`Digits`, `Digits.[Digits]`
or `.Digits`) as an exact scaled decimal. -/
def parse_mantissa (cs : List Char) : Option QVal :=
  match split_first (fun c => c == '.') cs with
  | none =>
    if cs ≠ [] ∧ cs.all Char.isDigit then some ⟨digits_to_nat cs, 0⟩ else none
  | some (intPart, fracPart) =>
    if (intPart ++ fracPart) ≠ [] ∧ intPart.all Char.isDigit ∧
        fracPart.all Char.isDigit then
      some ⟨digits_to_nat (intPart ++ fracPart), fracPart.length⟩
    else none

/-- Parse of an unsigned decimal float with optional exponent. -/
def parse_unsigned_float (cs : List Char) : Option QVal :=
  match split_first (fun c => c == 'e' || c == 'E') cs with
  | none => parse_mantissa cs
  | some (mant, expPart) =>
    match parse_mantissa mant with
    | none => none
    | some m =>
      let signedExp : Bool × List Char := match expPart with
        | '+' :: rest => (false, rest)
        | '-' :: rest => (true, rest)
        | rest => (false, rest)
      if signedExp.2 ≠ [] ∧ signedExp.2.all Char.isDigit then
        let e := digits_to_nat signedExp.2
        if signedExp.1 then some ⟨m.num, m.den10 + e⟩
        else some ⟨m.num * (10 : Int) ^ e, m.den10⟩
      else none

/-- Model of `<f32 as FromStr>::from_str` on quality weights (the
`inf`/`NaN` spellings are outside the model). -/
def parse_f32 (cs : List Char) : Option QVal :=
  match cs with
  | '+' :: rest => parse_unsigned_float rest
  | '-' :: rest => (parse_unsigned_float rest).map fun q => ⟨-q.num, q.den10⟩
  | cs => parse_unsigned_float cs

/-- Scan of the `;`-separated parameters of one header-value element: the
first parameter of the form `q=<float>` that parses sets the weight
(mirrors the `for p in params` loop of `util::parse_header_value`, which
breaks on the first successful parse and skips failures). -/
def find_q_value : List (List Char) → QVal
  | [] => qval_one
  | p :: rest =>
    let pt := trim_left_chars p
    if list_is_pre ['q', '='] pt then
      match parse_f32 (trim_chars (pt.drop 2)) with
      | some v => v
      | none => find_q_value rest
    else find_q_value rest

/-- Model of `util::parse_header_value` (src/util/mod.rs): splits the input
on `,`, then each element on `;`; the element name is trimmed and paired
with its `q` weight (default `1.0`). -/
def parse_header_value (input : String) : List (List Char × QVal) :=
  (split_char ',' input.toList).map fun elem =>
    match split_char ';' elem with
    | [] => ([], qval_one)
    | t :: params => (trim_chars t, find_q_value params)

/-- Model of `response::TransferEncoding`. -/
inductive TransferEncoding where
  | identity
  | chunked
  deriving DecidableEq, Repr

/-- Model of `<TransferEncoding as FromStr>::from_str`. -/
def transfer_encoding_from_chars (input : List Char) : Option TransferEncoding :=
  if lower_chars input == "identity".toList then some .identity
  else if lower_chars input == "chunked".toList then some .chunked
  else none

/-- Insertion of `x` into `l` strictly before the first element `y` with
`lt x y`; used to model Rust's stable `sort_by`. -/
def insert_by (lt : α → α → Bool) (x : α) : List α → List α
  | [] => [x]
  | y :: ys => if lt x y then x :: y :: ys else y :: insert_by lt x ys

/-- Stable sort placing `a` before `b` when `lt a b`, and keeping the
original order of elements that compare equal: the model of Rust's stable
`slice::sort_by` with the descending comparator of
`choose_transfer_encoding` when instantiated with `lt a b := b.2 < a.2`
(highest weight first, ties in original order). -/
def stable_sort_by (lt : α → α → Bool) (l : List α) : List α :=
  l.foldl (fun acc x => insert_by lt x acc) []

/-- The `for value in parse.iter()` loop of `choose_transfer_encoding`:
entries with `q <= 0.0` are skipped, and the first entry naming a
supported encoding decides. -/
def first_recognized_te : List (List Char × QVal) → Option TransferEncoding
  | [] => none
  | (s, q) :: rest =>
    if QVal.le q ⟨0, 0⟩ then first_recognized_te rest
    else
      match transfer_encoding_from_chars s with
      | some te => some te
      | none => first_recognized_te rest

/-- The `user_request` computation of `choose_transfer_encoding`
(src/response.rs): the request's first `TE` header parsed as a q-weighted
list, sorted by descending weight (stably), with the first surviving
supported encoding returned. -/
def te_user_request (requestHeaders : List Header) : Option TransferEncoding :=
  ((find_header requestHeaders "TE").map Header.value).bind fun value =>
    first_recognized_te
      (stable_sort_by (fun a b => QVal.lt b.2 a.2) (parse_header_value value))

/-- Lexicographic comparison `*http_version <= (major, minor)` from the
`PartialOrd` implementation of `common::HTTPVersion`. -/
def version_le (a b : Nat × Nat) : Bool :=
  a.1 < b.1 || (a.1 == b.1 && a.2 ≤ b.2)

/-- Model of `response::choose_transfer_encoding` (src/response.rs). -/
def choose_transfer_encoding (requestHeaders : List Header)
    (httpVersion : Nat × Nat) (entityLength : Option Nat)
    (hasAdditionalHeaders : Bool) : TransferEncoding :=
  if version_le httpVersion (1, 0) then .identity
  else
    match te_user_request requestHeaders with
    | some te => te
    | none =>
      if hasAdditionalHeaders then .chunked
      else if (match entityLength with
               | none => true
               | some val => 32768 ≤ val) then .chunked
      else .identity

/-- Decidable equality for `Except`, so that concrete runs of the
fallible operations below can be checked by `decide`. -/
instance exceptDecEq {ε α : Type} [DecidableEq ε] [DecidableEq α] :
    DecidableEq (Except ε α)
  | .error a, .error b =>
    if h : a = b then .isTrue (by rw [h]) else .isFalse (by simp [h])
  | .error _, .ok _ => .isFalse (by simp)
  | .ok _, .error _ => .isFalse (by simp)
  | .ok a, .ok b =>
    if h : a = b then .isTrue (by rw [h]) else .isFalse (by simp [h])

/-- Model of `std::io::ErrorKind` (the kinds the library distinguishes,
plus a catch-all for the remaining variants of the Rust enum). -/
inductive IoErrorKind where
  | brokenPipe
  | connectionAborted
  | connectionRefused
  | connectionReset
  | timedOut
  | invalidInput
  | unexpectedEof
  | otherKind
  deriving DecidableEq, Repr

/-- Model of `request::RequestCreationError`. -/
inductive RequestCreationError where
  | expectationFailed
  | creationIoError (kind : IoErrorKind)
  deriving DecidableEq, Repr

/-- Model of `common::Method` (only the variants the embedded claims
inspect are distinguished; the rest is carried by `nonStandard`). -/
inductive Method where
  | get
  | head
  | post
  | put
  | delete
  | connect
  | options
  | trace
  | patch
  | nonStandard (raw : String)
  deriving DecidableEq, Repr

/-- The body reader built by `new_request`, named after the `Read`
implementation each branch boxes: the raw upstream (upgrade), an
in-memory `Cursor` over a drained buffer, `io::empty`, an `EqualReader`
limited to `n` bytes, or the chunked `Decoder`.  `rest` is the upstream
byte stream the reader wraps. -/
inductive BodyReader where
  | upgradePass (rest : List Char)
  | buffered (bytes : List Char)
  | emptyReader
  | equalReader (n : Nat) (rest : List Char)
  | chunkedDecoder (rest : List Char)
  deriving DecidableEq, Repr

/-- Model of a `Request` (src/request.rs): the reader and writer slots are
`Option`s because `respond`/`into_writer`/`upgrade` take them out. -/
structure Request where
  secure : Bool
  method : Method
  path : String
  http_version : Nat × Nat
  headers : List Header
  body_length : Option Nat
  must_send_continue : Bool
  data_reader : Option BodyReader
  writer_present : Bool
  deriving DecidableEq, Repr

/-- The `expects_continue` block of `new_request`: an `Expect` header other
than `100-continue` aborts construction with `ExpectationFailed`. -/
def expects_continue_of (headers : List Header) :
    Except RequestCreationError Bool :=
  match find_header headers "Expect" with
  | none => .ok false
  | some h =>
    if eq_ignore_ascii_case h.value "100-continue" then .ok true
    else .error .expectationFailed

/-- The `connection_upgrade` block of `new_request`: true when the first
`Connection` header's value contains `upgrade` after ASCII lowercasing. -/
def connection_upgrade_of (headers : List Header) : Bool :=
  match find_header headers "Connection" with
  | some h => list_contains_sub (lower_chars h.value.toList) "upgrade".toList
  | none => false

/-- One pass of the body-drain loop of `new_request` for small
`Content-Length` bodies.  `data` is the upstream byte stream, `sched i`
the number of bytes the operating system makes available to the `i`-th
`read` call (the loop reads into `buffer[offset..]`, so a call returns at
most `n - offset` bytes, and at most the bytes remaining upstream).  A
read returning `0` before the target means the peer closed early and
aborts with `ConnectionAborted`, as in the source.  The fuel argument is
only a structural-recursion bound: the loop makes at most `n` progressing
iterations, so `fuel = n + 1` (as used by `drain_body`) never runs out. -/
def drain_go (data : List Char) (sched : Nat → Nat) (n : Nat) :
    Nat → Nat → Nat → Except RequestCreationError (List Char)
  | 0, _, _ => .error (.creationIoError .otherKind)
  | fuel + 1, i, offset =>
    if offset = n then .ok []
    else
      let r := min (sched i) (min (n - offset) (data.length - offset))
      if r = 0 then .error (.creationIoError .connectionAborted)
      else
        match drain_go data sched n fuel (i + 1) (offset + r) with
        | .ok rest => .ok ((data.drop offset).take r ++ rest)
        | .error e => .error e

/-- The full drain loop of `new_request`, started at offset 0. -/
def drain_body (data : List Char) (sched : Nat → Nat) (n : Nat) :
    Except RequestCreationError (List Char) :=
  drain_go data sched n (n + 1) 0 0

/-- The reader-selection `if`/`else` chain of `new_request`
(src/request.rs lines 154-199): `Connection: upgrade` keeps the whole
stream; then a parsed `Content-Length` selects the empty reader, the
drained in-memory buffer, or an `EqualReader`; then a `Transfer-Encoding`
selects the chunked decoder; otherwise the body is empty. -/
def reader_of (connectionUpgrade : Bool) (contentLength : Option Nat)
    (transferEncodingSome expectsContinue : Bool) (data : List Char)
    (sched : Nat → Nat) : Except RequestCreationError BodyReader :=
  if connectionUpgrade then .ok (.upgradePass data)
  else
    match contentLength with
    | some n =>
      if n = 0 then .ok .emptyReader
      else if n ≤ 1024 && !expectsContinue then
        (drain_body data sched n).map .buffered
      else .ok (.equalReader n data)
    | none =>
      if transferEncodingSome then .ok (.chunkedDecoder data)
      else .ok .emptyReader

/-- Model of `request::new_request` (src/request.rs): header
classification and body-reader construction.  `data` is the upstream byte
stream starting at the first body byte and `sched` the read-size schedule
of the upstream source. -/
def new_request (secure : Bool) (method : Method) (path : String)
    (version : Nat × Nat) (headers : List Header) (data : List Char)
    (sched : Nat → Nat) : Except RequestCreationError Request :=
  let transfer_encoding := (find_header headers "Transfer-Encoding").map
    Header.value
  let content_length : Option Nat :=
    if transfer_encoding.isSome then none
    else (find_header headers "Content-Length").bind fun h =>
      parse_usize h.value
  match expects_continue_of headers with
  | .error e => .error e
  | .ok expectsContinue =>
    match reader_of (connection_upgrade_of headers) content_length
        transfer_encoding.isSome expectsContinue data sched with
    | .error e => .error e
    | .ok reader =>
      .ok {
        secure := secure
        method := method
        path := path
        http_version := version
        headers := headers
        body_length := content_length
        must_send_continue := expectsContinue
        data_reader := some reader
        writer_present := true
      }

/-- The body framing of the spec's data model, derived per request. -/
inductive Framing where
  | noBody
  | length (n : Nat)
  | chunked
  | upgrade
  deriving DecidableEq, Repr

/-- Framing classification of a constructed request: passthrough readers
mean `Upgrade`, the chunked decoder means `Chunked`, and the in-memory /
equal readers realize `Length n` exactly when a body length was recorded. -/
def framing_of (req : Request) : Framing :=
  match req.data_reader with
  | some (.upgradePass _) => .upgrade
  | some (.chunkedDecoder _) => .chunked
  | _ =>
    match req.body_length with
    | some n => .length n
    | none => .noBody

/-- Model of `response::Response`: a byte source, a status code, the
stored header list, and the optional known data length. -/
structure Response where
  data : List Char
  status_code : Nat
  headers : List Header
  data_length : Option Nat
  deriving DecidableEq, Repr

/-- The reserved-header test of `Response::add_header` (src/response.rs
lines 216-224). -/
def reserved_response_field (f : String) : Bool :=
  eq_ignore_ascii_case f "Accept-Ranges" ||
  eq_ignore_ascii_case f "Connection" ||
  eq_ignore_ascii_case f "Content-Range" ||
  eq_ignore_ascii_case f "Trailer" ||
  eq_ignore_ascii_case f "Transfer-Encoding" ||
  eq_ignore_ascii_case f "Upgrade"

/-- Model of `Response::add_header` (src/response.rs): reserved headers
are dropped, `Content-Length` with a parsable value updates the stored
data length (and is dropped either way), anything else is appended. -/
def add_header (resp : Response) (header : Header) : Response :=
  if reserved_response_field header.field then resp
  else if eq_ignore_ascii_case header.field "Content-Length" then
    match parse_usize header.value with
    | some val => { resp with data_length := some val }
    | none => resp
  else { resp with headers := resp.headers ++ [header] }

/-- Model of `Response::new`: every initial header goes through
`add_header` (the `additional_headers` receiver is not modelled; every
caller in the embedded claims passes `None`). -/
def response_new (status : Nat) (headers : List Header) (data : List Char)
    (dataLength : Option Nat) : Response :=
  headers.foldl add_header
    { data := data, status_code := status, headers := [],
      data_length := dataLength }

/-- Model of `Response::empty` / `Response::new_empty`: an `io::empty`
body with known length 0. -/
def response_empty (code : Nat) : Response :=
  response_new code [] [] (some 0)

/-- The status codes that must not carry a body, from the
`match self.status_code.0 { 100...199 | 204 | 304 => true, .. }` of
`raw_print`. -/
def status_forbids_body (code : Nat) : Bool :=
  (100 ≤ code && code ≤ 199) || code == 204 || code == 304

/-- Decimal digit characters of a natural number (the fuel argument is a
structural-recursion bound; callers supply `n + 1`, always sufficient). -/
def nat_to_dec_go : Nat → Nat → List Char
  | 0, _ => []
  | fuel + 1, n =>
    if n = 0 then []
    else nat_to_dec_go fuel (n / 10) ++ [Char.ofNat ('0'.toNat + n % 10)]

/-- Decimal rendering of a natural number. -/
def nat_to_dec (n : Nat) : List Char :=
  if n = 0 then ['0'] else nat_to_dec_go (n + 1) n

/-- Hexadecimal digit character. -/
def hex_digit (n : Nat) : Char :=
  if n < 10 then Char.ofNat ('0'.toNat + n) else Char.ofNat ('a'.toNat + n - 10)

/-- Hexadecimal digit characters of a natural number (fuel bound as in
`nat_to_dec_go`). -/
def nat_to_hex_go : Nat → Nat → List Char
  | 0, _ => []
  | fuel + 1, n =>
    if n = 0 then [] else nat_to_hex_go fuel (n / 16) ++ [hex_digit (n % 16)]

/-- Hexadecimal rendering of a natural number. -/
def nat_to_hex (n : Nat) : List Char :=
  if n = 0 then ['0'] else nat_to_hex_go (n + 1) n

/-- The bytes `\r\n`. -/
def crlf : List Char := ['\r', '\n']

/-- Modelled from the spec: the chunked-transfer codec is an external
collaborator ("the chunked-transfer codec (assumed available as a
streaming encoder/decoder over a byte stream)").  The encoder is modelled
as emitting the data as one length-prefixed chunk followed by the
zero-length terminating chunk; no embedded claim inspects the chunk
boundaries. -/
def chunk_encode (data : List Char) : List Char :=
  (if data = [] then []
   else nat_to_hex data.length ++ crlf ++ data ++ crlf) ++
  '0' :: crlf ++ crlf

/-- Model of `StatusCode::default_reason_phrase` (src/common.rs). -/
def default_reason_phrase (code : Nat) : String :=
  match code with
  | 100 => "Continue"
  | 101 => "Switching Protocols"
  | 102 => "Processing"
  | 118 => "Connection timed out"
  | 200 => "OK"
  | 201 => "Created"
  | 202 => "Accepted"
  | 203 => "Non-Authoritative Information"
  | 204 => "No Content"
  | 205 => "Reset Content"
  | 206 => "Partial Content"
  | 207 => "Multi-Status"
  | 210 => "Content Different"
  | 300 => "Multiple Choices"
  | 301 => "Moved Permanently"
  | 302 => "Found"
  | 303 => "See Other"
  | 304 => "Not Modified"
  | 305 => "Use Proxy"
  | 307 => "Temporary Redirect"
  | 400 => "Bad Request"
  | 401 => "Unauthorized"
  | 402 => "Payment Required"
  | 403 => "Forbidden"
  | 404 => "Not Found"
  | 405 => "Method Not Allowed"
  | 406 => "Not Acceptable"
  | 407 => "Proxy Authentication Required"
  | 408 => "Request Time-out"
  | 409 => "Conflict"
  | 410 => "Gone"
  | 411 => "Length Required"
  | 412 => "Precondition Failed"
  | 413 => "Request Entity Too Large"
  | 414 => "Reques-URI Too Large"
  | 415 => "Unsupported Media Type"
  | 416 => "Request range not satisfiable"
  | 417 => "Expectation Failed"
  | 500 => "Internal Server Error"
  | 501 => "Not Implemented"
  | 502 => "Bad Gateway"
  | 503 => "Service Unavailable"
  | 504 => "Gateway Time-out"
  | 505 => "HTTP Version not supported"
  | _ => "Unknown"

/-- Model of `response::write_message_header`: the status line, the
headers, and the empty separator line. -/
def write_message_header (httpVersion : Nat × Nat) (statusCode : Nat)
    (headers : List Header) : List Char :=
  ("HTTP/".toList ++ nat_to_dec httpVersion.1 ++ '.' :: nat_to_dec httpVersion.2
    ++ ' ' :: nat_to_dec statusCode ++ ' ' ::
    (default_reason_phrase statusCode).toList ++ crlf) ++
  (headers.foldr
    (fun h acc => h.field.toList ++ ':' :: ' ' :: h.value.toList ++ crlf ++ acc)
    []) ++
  crlf

/-- The result of serializing one response: the final header list, the
entity bytes handed to the body encoder (empty when the body is
suppressed), and the on-wire body bytes written after the blank line. -/
structure WireResponse where
  http_version : Nat × Nat
  status : Nat
  headers : List Header
  entity : List Char
  wire_body : List Char
  deriving DecidableEq, Repr

/-- All the bytes `raw_print` writes: header block then body bytes. -/
def serialize_wire (w : WireResponse) : List Char :=
  write_message_header w.http_version w.status w.headers ++ w.wire_body

/-- Model of `Response::raw_print` (src/response.rs lines 275-378).
`dateValue` stands for the clock-dependent value of the injected `Date`
header.  The identity encoding copies the body through an `EqualReader`
limited to the known length (skipped entirely for length 0); the chunked
encoding passes the body through the chunked encoder; a suppressed body
writes no body bytes at all. -/
def raw_print (resp : Response) (httpVersion : Nat × Nat)
    (requestHeaders : List Header) (doNotSendBody : Bool)
    (upgrade : Option String) (dateValue : String) : WireResponse :=
  let transferEncoding : Option TransferEncoding :=
    some (choose_transfer_encoding requestHeaders httpVersion
      resp.data_length false)
  let headers := if (find_header resp.headers "Date").isNone then
      ({ field := "Date", value := dateValue } : Header) :: resp.headers
    else resp.headers
  let headers := if (find_header headers "Server").isNone then
      ({ field := "Server", value := "tiny-http (Rust)" } : Header) :: headers
    else headers
  let headersTe : List Header × Option TransferEncoding :=
    match upgrade with
    | some u =>
      (({ field := "Connection", value := "upgrade" } : Header) ::
        ({ field := "Upgrade", value := u } : Header) :: headers, none)
    | none => (headers, transferEncoding)
  let readerLen : List Char × Option Nat :=
    match resp.data_length, headersTe.2 with
    | some l, _ => (resp.data, some l)
    | none, some .identity => (resp.data, some resp.data.length)
    | _, _ => (resp.data, none)
  let suppress := doNotSendBody || status_forbids_body resp.status_code
  let headersOut :=
    match headersTe.2 with
    | some .chunked =>
      headersTe.1 ++ [{ field := "Transfer-Encoding", value := "chunked" }]
    | some .identity =>
      headersTe.1 ++
        [{ field := "Content-Length",
           value := String.mk (nat_to_dec (readerLen.2.getD 0)) }]
    | none => headersTe.1
  let entity : List Char :=
    if suppress then []
    else
      match headersTe.2 with
      | some .chunked => readerLen.1
      | some .identity => readerLen.1.take (readerLen.2.getD 0)
      | none => []
  let wireBody : List Char :=
    if suppress then []
    else
      match headersTe.2 with
      | some .chunked => chunk_encode readerLen.1
      | some .identity => readerLen.1.take (readerLen.2.getD 0)
      | none => []
  { http_version := httpVersion, status := resp.status_code,
    headers := headersOut, entity := entity, wire_body := wireBody }

/-- The body-suppression flag computed by `respond_impl`
(src/request.rs line 373): `self.method == Method::Head`. -/
def respond_do_not_send_body (m : Method) : Bool :=
  m == .head

/-- The wire output of `Request::respond` / `respond_impl`: drop the body
reader, take the writer, serialize with the HEAD suppression flag and no
upgrade. -/
def respond_wire (method : Method) (httpVersion : Nat × Nat)
    (requestHeaders : List Header) (resp : Response) (dateValue : String) :
    WireResponse :=
  raw_print resp httpVersion requestHeaders (respond_do_not_send_body method)
    none dateValue

/-- The "peer closed" error family filtered by `respond_impl`
(src/request.rs lines 380-383). -/
def is_peer_closed (k : IoErrorKind) : Bool :=
  match k with
  | .brokenPipe => true
  | .connectionAborted => true
  | .connectionRefused => true
  | .connectionReset => true
  | _ => false

/-- The error handling of `respond_impl` (src/request.rs lines 375-388):
the result of `raw_print` is matched — `Ok` and the four peer-closed
kinds fall through, any other kind returns early — and then the result of
`writer.flush()` is returned. -/
def respond_impl_result (printResult : Except IoErrorKind Unit)
    (flushResult : Except IoErrorKind Unit) : Except IoErrorKind Unit :=
  match printResult with
  | .ok _ => flushResult
  | .error k => if is_peer_closed k then flushResult else .error k

/-- Model of `Drop for Request` (src/request.rs lines 397-407): the body
reader is dropped, and if the response writer is still present an empty
`500` response is sent through `respond_impl`. -/
def drop_request (req : Request) (dateValue : String) : Option WireResponse :=
  if req.writer_present then
    some (respond_wire req.method req.http_version req.headers
      (response_empty 500) dateValue)
  else none

/-- The state of a request after `Drop for Request` ran. -/
def drop_request_state (req : Request) : Request :=
  { req with data_reader := none, writer_present := false }

/-- The three operations that consume a `Request`. -/
inductive TerminalOp where
  | respondOp
  | intoWriterOp
  | upgradeOp
  deriving DecidableEq, Repr

/-- Effect of the terminal operations on the request state and the wire:
`respond` drops the reader, takes the writer and serializes; `into_writer`
takes the writer and hands it to the caller (no library output);
`upgrade` serializes with upgrade headers and takes both slots. -/
def apply_terminal (t : TerminalOp) (req : Request) (resp : Response)
    (protocol : String) (dateValue : String) : Request × Option WireResponse :=
  match t with
  | .respondOp =>
    ({ req with data_reader := none, writer_present := false },
     some (respond_wire req.method req.http_version req.headers resp dateValue))
  | .intoWriterOp =>
    ({ req with data_reader := none, writer_present := false }, none)
  | .upgradeOp =>
    ({ req with data_reader := none, writer_present := false },
     some (raw_print resp req.http_version req.headers false (some protocol)
       dateValue))

/-- The library responses emitted over one request's whole lifetime: an
optional terminal operation followed by the destructor. -/
def lifecycle_outputs (req : Request) (t : Option TerminalOp)
    (resp : Response) (protocol : String) (dateValue : String) :
    List WireResponse :=
  match t with
  | none => (drop_request req dateValue).toList
  | some term =>
    let step := apply_terminal term req resp protocol dateValue
    step.2.toList ++ (drop_request step.1 dateValue).toList

/-- Model of the keep-alive decision of `ClientConnection::next`
(src/client.rs lines 235-258): the first `Connection` header is
lowercased and tested for `close`, then `upgrade`, then the HTTP/1.0
rules; the result is the `no_more_requests` flag that makes the iterator
return `None` on its next call. -/
def no_more_requests (headers : List Header) (version : Nat × Nat) : Bool :=
  match (find_header headers "Connection").map
      (fun h => lower_chars h.value.toList) with
  | some v =>
    if list_contains_sub v "close".toList then true
    else if list_contains_sub v "upgrade".toList then true
    else if !list_contains_sub v "keep-alive".toList && version == (1, 0) then
      true
    else false
  | none => version == (1, 0)

/-- Whether the connection iterator yields a further request after a
successfully parsed request (the `if self.no_more_requests { return None }`
guard of `Iterator::next`). -/
def yields_further_request (headers : List Header) (version : Nat × Nat) :
    Bool :=
  !no_more_requests headers version

/-- An observable event on one connection's chain of write slots
(`util::SequentialWriter`): slot `s` writes bytes to the shared socket,
or slot `s` is dropped. -/
inductive SlotEvent where
  | write (slot : Nat)
  | dropped (slot : Nat)
  deriving DecidableEq, Repr

/-- The slot an event belongs to. -/
def SlotEvent.slot : SlotEvent → Nat
  | .write s => s
  | .dropped s => s

/-- Whether an event is a drop. -/
def SlotEvent.isDrop : SlotEvent → Bool
  | .write _ => false
  | .dropped _ => true

/-- The traces of socket events that the `SequentialWriter` mechanism can
produce, with slot `k` holding the `Receiver` created when slot `k + 1`
was built (src/util/sequential.rs):

* Rust ownership: after a slot's destructor ran, no further event of that
  slot can occur (this also makes drops unique per slot).
* The ordering contract: every `write` of slot `k + 1` first performed
  the blocking `trigger.recv()`, which only returns once slot `k`'s
  destructor sent the `on_finish` signal — and the destructor sends it
  unconditionally, so a trace may always continue with `write (k + 1)`
  once `dropped k` has occurred (`slot_release_unconditional` below).
  Slot `0` is built with no trigger and never blocks. -/
def ValidTrace (tr : List SlotEvent) : Prop :=
  (∀ i j : Fin tr.length, i < j → (tr.get i).isDrop = true →
    (tr.get i).slot ≠ (tr.get j).slot) ∧
  (∀ j : Fin tr.length, (tr.get j).isDrop = false → (tr.get j).slot ≠ 0 →
    ∃ i : Fin tr.length, i < j ∧ tr.get i = .dropped ((tr.get j).slot - 1))

instance (tr : List SlotEvent) : Decidable (ValidTrace tr) := by
  unfold ValidTrace
  infer_instance

/-! ### Claim-side definitions

The following definitions transcribe the spec's (or a claim's) wording, to
be compared against the code-side definitions above. -/

/-- The parsed `Content-Length` of a request's header list (ignored when a
`Transfer-Encoding` header is present), as recorded in
`Request::body_length`. -/
def request_content_length (headers : List Header) : Option Nat :=
  if (find_header headers "Transfer-Encoding").isSome then none
  else (find_header headers "Content-Length").bind fun h => parse_usize h.value

/-- The framing selection rule exactly as claim C1 states it:
`Transfer-Encoding` takes precedence over everything else, then
`Connection: upgrade`, then `Content-Length`, then no body. -/
def claim_framing_te_first (headers : List Header) : Framing :=
  if (find_header headers "Transfer-Encoding").isSome then .chunked
  else if connection_upgrade_of headers then .upgrade
  else
    match (find_header headers "Content-Length").bind
        (fun h => parse_usize h.value) with
    | some n => .length n
    | none => .noBody

/-- The framing selection rule as amended: the first `Connection` header
containing `upgrade` takes precedence, then `Transfer-Encoding` means
chunked, then `Content-Length`, then no body. -/
def claim_framing_upgrade_first (headers : List Header) : Framing :=
  if connection_upgrade_of headers then .upgrade
  else if (find_header headers "Transfer-Encoding").isSome then .chunked
  else
    match (find_header headers "Content-Length").bind
        (fun h => parse_usize h.value) with
    | some n => .length n
    | none => .noBody

/-- The transfer-encoding choice exactly as claim C3 states it: HTTP/1.0
means identity; else a `TE` header requesting `chunked` means chunked;
else chunked exactly when the entity length is unknown or at least
32768. -/
def claim_c3_encoding (reqHeaders : List Header) (v : Nat × Nat)
    (len : Option Nat) : TransferEncoding :=
  if v == (1, 0) then .identity
  else if te_user_request reqHeaders == some .chunked then .chunked
  else if (match len with
           | none => true
           | some n => 32768 ≤ n) then .chunked
  else .identity

/-- The transfer-encoding choice as amended: HTTP/1.0 **or lower** means
identity; else the `TE` header's recognized encoding with the highest
positive weight (identity as well as chunked) is honored; else chunked
exactly when the entity length is unknown or at least 32768. -/
def claim_c3_amended_encoding (reqHeaders : List Header) (v : Nat × Nat)
    (len : Option Nat) : TransferEncoding :=
  if version_le v (1, 0) then .identity
  else
    match te_user_request reqHeaders with
    | some te => te
    | none =>
      if (match len with
          | none => true
          | some n => 32768 ≤ n) then .chunked
      else .identity

/-- The lowercased value of the first `Connection` header, if any. -/
def first_connection_value (headers : List Header) : Option (List Char) :=
  (find_header headers "Connection").map fun h => lower_chars h.value.toList

/-- The keep-alive termination condition exactly as claim C9 states it,
with "some Connection header value" ranging over **all** `Connection`
headers. -/
def claim_c9_no_more (headers : List Header) (version : Nat × Nat) : Bool :=
  (headers.any fun h => eq_ignore_ascii_case h.field "Connection" &&
    list_contains_sub (lower_chars h.value.toList) "close".toList) ||
  (headers.any fun h => eq_ignore_ascii_case h.field "Connection" &&
    list_contains_sub (lower_chars h.value.toList) "upgrade".toList) ||
  (version == (1, 0) &&
    !(headers.any fun h => eq_ignore_ascii_case h.field "Connection" &&
      list_contains_sub (lower_chars h.value.toList) "keep-alive".toList))

/-- The keep-alive termination condition as amended: only the **first**
`Connection` header's value is inspected. -/
def claim_c9_amended_no_more (headers : List Header) (version : Nat × Nat) :
    Bool :=
  (match first_connection_value headers with
   | some v => list_contains_sub v "close".toList
   | none => false) ||
  (match first_connection_value headers with
   | some v => list_contains_sub v "upgrade".toList
   | none => false) ||
  (version == (1, 0) &&
    !(match first_connection_value headers with
      | some v => list_contains_sub v "keep-alive".toList
      | none => false))

/-- The contents of a body reader that is fully in memory after request
construction (`Cursor` over the drained buffer, or `io::empty`); `none`
for the readers that still pull from the upstream stream. -/
def buffered_contents : BodyReader → Option (List Char)
  | .buffered bytes => some bytes
  | .emptyReader => some []
  | _ => none

/-- One `read` call on an in-memory `Cursor`: the bytes returned when
reading `len` bytes at position `pos`. -/
def cursor_read (buf : List Char) (pos len : Nat) : List Char :=
  (buf.drop pos).take len

/-! ### Theorems -/

/-- Claim C3, counterexample: for the header list `TE: identity`, HTTP/1.1
and unknown entity length, the code honors the identity request
(`choose_transfer_encoding` returns `Identity`), while the claim's rule —
chunked only on request, otherwise chunked for unknown length — demands
`Chunked`. -/
theorem c3_counterexample :
    choose_transfer_encoding [{ field := "TE", value := "identity" }] (1, 1)
      none false = .identity ∧
    claim_c3_encoding [{ field := "TE", value := "identity" }] (1, 1) none =
      .chunked ∧
    TransferEncoding.identity ≠ TransferEncoding.chunked := by
  decide

/-- Claim C3 as amended: for every request header list, HTTP version and
optional entity length, the response transfer encoding is `Identity` for
versions at most 1.0; otherwise the recognized encoding of highest
positive q-weight in the `TE` header (identity as well as chunked) is
honored; otherwise `Chunked` exactly when the entity length is unknown or
at least 32768 bytes, and `Identity` in the remaining cases. -/
theorem c3_amended_transfer_encoding (reqHeaders : List Header)
    (v : Nat × Nat) (len : Option Nat) :
    choose_transfer_encoding reqHeaders v len false =
      claim_c3_amended_encoding reqHeaders v len := by
  unfold choose_transfer_encoding claim_c3_amended_encoding
  split
  · rfl
  · rfl

/-- Claim C6, counterexample: a `Content-Length` header whose value does
not parse as a number is neither reserved nor a length update, so the
claim's "every other header is appended" case demands that it be
appended; `add_header` instead drops it entirely. -/
theorem c6_counterexample :
    (add_header
        { data := [], status_code := 200, headers := [], data_length := some 0 }
        { field := "Content-Length", value := "abc" }).headers = [] ∧
    reserved_response_field "Content-Length" = false ∧
    parse_usize "abc" = none ∧
    ([] : List Header) ≠
      [{ field := "Content-Length", value := "abc" }] := by
  decide

/-- Claim C6 as amended: reserved headers leave the response unchanged; a
`Content-Length` header with a numeric value updates the stored length
without being appended; a `Content-Length` header with a non-numeric
value is dropped entirely; every header with any other field is appended
preserving order. -/
theorem c6_amended_add_header (resp : Response) (h : Header) :
    (reserved_response_field h.field = true → add_header resp h = resp) ∧
    (reserved_response_field h.field = false →
      eq_ignore_ascii_case h.field "Content-Length" = true →
      ∀ n, parse_usize h.value = some n →
        (add_header resp h).headers = resp.headers ∧
        (add_header resp h).data_length = some n) ∧
    (reserved_response_field h.field = false →
      eq_ignore_ascii_case h.field "Content-Length" = true →
      parse_usize h.value = none → add_header resp h = resp) ∧
    (reserved_response_field h.field = false →
      eq_ignore_ascii_case h.field "Content-Length" = false →
      (add_header resp h).headers = resp.headers ++ [h] ∧
      (add_header resp h).data_length = resp.data_length) := by
  refine ⟨fun hres => ?_, fun hres hcl n hn => ?_, fun hres hcl hn => ?_,
    fun hres hcl => ?_⟩
  · simp [add_header, hres]
  · simp [add_header, hres, hcl, hn]
  · simp [add_header, hres, hcl, hn]
  · simp [add_header, hres, hcl]

/-- Witness for `c6_amended_add_header` at a concrete non-reserved
header. -/
theorem c6_amended_add_header_witness :
    (add_header
        { data := [], status_code := 200, headers := [], data_length := some 0 }
        { field := "X-Custom", value := "yes" }).headers =
      [{ field := "X-Custom", value := "yes" }] := by
  have h := (c6_amended_add_header
    { data := [], status_code := 200, headers := [], data_length := some 0 }
    { field := "X-Custom", value := "yes" }).2.2.2 (by decide) (by decide)
  simpa using h.1

/-- Claim C8, counterexample: a broken-pipe error raised by the final
`writer.flush()` — which writes the buffered response bytes to the socket
— is returned from `respond` instead of being swallowed, although its
kind is in the "peer closed" family the claim says is always swallowed. -/
theorem c8_counterexample :
    respond_impl_result (.ok ()) (.error .brokenPipe) = .error .brokenPipe ∧
    is_peer_closed .brokenPipe = true ∧
    (Except.error IoErrorKind.brokenPipe : Except IoErrorKind Unit) ≠
      .ok () := by
  decide

/-- Claim C8 as amended: errors of the peer-closed family raised by the
serialization step (`raw_print`) are swallowed — the result is then
whatever the final flush returns — while a `raw_print` error of any other
kind is returned to the caller; the final flush's result is returned
as-is regardless of its kind. -/
theorem c8_amended_respond_errors (printResult flushResult :
    Except IoErrorKind Unit) :
    ((printResult = .ok () ∨
        ∃ k, printResult = .error k ∧ is_peer_closed k = true) →
      respond_impl_result printResult flushResult = flushResult) ∧
    (∀ k, printResult = .error k → is_peer_closed k = false →
      respond_impl_result printResult flushResult = .error k) := by
  constructor
  · rintro (hok | ⟨k, hk, hpc⟩)
    · rw [hok]; rfl
    · rw [hk]; simp [respond_impl_result, hpc]
  · intro k hk hpc
    rw [hk]
    simp [respond_impl_result, hpc]

/-- Witness for `c8_amended_respond_errors`: a connection-reset error
from serialization is swallowed and the successful flush result is
returned. -/
theorem c8_amended_respond_errors_witness :
    respond_impl_result (.error .connectionReset) (.ok ()) = .ok () :=
  (c8_amended_respond_errors (.error .connectionReset) (.ok ())).1
    (Or.inr ⟨.connectionReset, rfl, rfl⟩)

/-- Claim C9, counterexample: with the two headers `Connection: x` and
`Connection: close` on an HTTP/1.1 request, some `Connection` value
contains `close`, so the claim says no further request is yielded; the
code inspects only the first `Connection` header and keeps the connection
alive. -/
theorem c9_counterexample :
    yields_further_request
      [{ field := "Connection", value := "x" },
       { field := "Connection", value := "close" }] (1, 1) = true ∧
    claim_c9_no_more
      [{ field := "Connection", value := "x" },
       { field := "Connection", value := "close" }] (1, 1) = true := by
  decide

/-- Claim C9 as amended: after each successfully parsed request the
connection iterator yields a further request if and only if none of the
following hold for the **first** `Connection` header: its value contains
`close`; its value contains `upgrade`; the request is HTTP/1.0 and the
first `Connection` value (if any) does not contain `keep-alive`. -/
theorem c9_amended_keep_alive (headers : List Header) (version : Nat × Nat) :
    yields_further_request headers version =
      !claim_c9_amended_no_more headers version := by
  unfold yields_further_request no_more_requests claim_c9_amended_no_more
    first_connection_value
  cases hc : find_header headers "Connection" with
  | none =>
    simp
  | some h =>
    simp only [Option.map]
    cases h1 : list_contains_sub (lower_chars h.value.toList) "close".toList <;>
      cases h2 : list_contains_sub (lower_chars h.value.toList)
        "upgrade".toList <;>
      cases h3 : list_contains_sub (lower_chars h.value.toList)
        "keep-alive".toList <;>
      cases h4 : version == (1, 0) <;> simp [h1, h2, h3, h4]

/-- Claim C10: once a terminal operation (`respond`, `into_writer` or
`upgrade`) has taken the response writer, the writer slot is empty and the
destructor writes nothing — in particular the automatic 500 is never
emitted after a response has been sent.  Over a whole lifecycle the
library emits exactly one response for `respond`, `upgrade` and the
drop-without-responding path; for `into_writer` it emits none itself and
instead hands the raw writer to the caller (whose custom response is the
one response of that request). -/
theorem c10_writer_consumed_once (req : Request)
    (hw : req.writer_present = true) (t : TerminalOp) (resp : Response)
    (protocol dv : String) :
    (apply_terminal t req resp protocol dv).1.writer_present = false ∧
    drop_request (apply_terminal t req resp protocol dv).1 dv = none ∧
    (lifecycle_outputs req (some t) resp protocol dv).length =
      (match t with
       | .intoWriterOp => 0
       | _ => 1) ∧
    (lifecycle_outputs req none resp protocol dv).length = 1 := by
  cases t <;>
    simp [apply_terminal, drop_request, lifecycle_outputs, hw]

/-- Witness for `c10_writer_consumed_once` at a concrete request. -/
theorem c10_writer_consumed_once_witness :
    (lifecycle_outputs
      { secure := false, method := .get, path := "/", http_version := (1, 1),
        headers := [], body_length := none, must_send_continue := false,
        data_reader := some .emptyReader, writer_present := true }
      (some .respondOp) (response_empty 200) "" "date").length = 1 :=
  (c10_writer_consumed_once
    { secure := false, method := .get, path := "/", http_version := (1, 1),
      headers := [], body_length := none, must_send_continue := false,
      data_reader := some .emptyReader, writer_present := true }
    rfl .respondOp (response_empty 200) "" "date").2.2.1

/-- Claim C4: whenever the suppress-body flag is set — and `respond` sets
it exactly when the request method is `HEAD` — or the status code lies in
100-199, 204 or 304, `raw_print` writes zero body bytes after the blank
line ending the headers (the serialized wire is exactly the header
block), even when the response value carries a non-empty byte source. -/
theorem c4_suppressed_body (resp : Response) (v : Nat × Nat)
    (reqHeaders : List Header) (dns : Bool) (dv : String)
    (h : dns = true ∨ (100 ≤ resp.status_code ∧ resp.status_code ≤ 199) ∨
      resp.status_code = 204 ∨ resp.status_code = 304) :
    (raw_print resp v reqHeaders dns none dv).wire_body = [] ∧
    (raw_print resp v reqHeaders dns none dv).entity = [] ∧
    serialize_wire (raw_print resp v reqHeaders dns none dv) =
      write_message_header v resp.status_code
        (raw_print resp v reqHeaders dns none dv).headers ∧
    (∀ m : Method, respond_wire m v reqHeaders resp dv =
      raw_print resp v reqHeaders (respond_do_not_send_body m) none dv ∧
      (respond_do_not_send_body m = true ↔ m = .head)) := by
  have hsup : (dns || status_forbids_body resp.status_code) = true := by
    rcases h with h | h | h | h
    · simp [h]
    · simp only [status_forbids_body, Bool.or_eq_true, Bool.and_eq_true,
        decide_eq_true_eq, beq_iff_eq]
      omega
    · simp [status_forbids_body, h]
    · simp [status_forbids_body, h]
  refine ⟨?_, ?_, ?_, fun m => ⟨rfl, ?_⟩⟩ <;>
    first
      | simp [raw_print, serialize_wire, hsup]
      | (cases m <;> simp [respond_do_not_send_body])

/-- Witness for `c4_suppressed_body`: a 304 response carrying a non-empty
body source writes no body bytes. -/
theorem c4_suppressed_body_witness :
    (raw_print
      { data := "hello".toList, status_code := 304, headers := [],
        data_length := some 5 } (1, 1) [] false none "date").wire_body = [] :=
  (c4_suppressed_body
    { data := "hello".toList, status_code := 304, headers := [],
      data_length := some 5 } (1, 1) [] false "date"
    (Or.inr (Or.inr (Or.inr rfl)))).1

/-- Claim C7: dropping a `Request` whose response writer was not consumed
by `respond`, `into_writer` or `upgrade` emits, through its write slot,
exactly the `respond` output of the empty 500 response: a response with
status code 500 and an empty entity. -/
theorem c7_drop_emits_500 (req : Request) (dv : String)
    (hw : req.writer_present = true) :
    drop_request req dv =
      some (respond_wire req.method req.http_version req.headers
        (response_empty 500) dv) ∧
    (respond_wire req.method req.http_version req.headers
      (response_empty 500) dv).status = 500 ∧
    (respond_wire req.method req.http_version req.headers
      (response_empty 500) dv).entity = [] := by
  refine ⟨by simp [drop_request, hw], rfl, ?_⟩
  cases hte : choose_transfer_encoding req.headers req.http_version (some 0)
      false <;>
    simp [respond_wire, raw_print, response_empty, response_new, hte]

/-- Witness for `c7_drop_emits_500` at a concrete unanswered request. -/
theorem c7_drop_emits_500_witness :
    drop_request
      { secure := false, method := .get, path := "/", http_version := (1, 1),
        headers := [], body_length := none, must_send_continue := false,
        data_reader := some .emptyReader, writer_present := true } "date" =
      some (respond_wire .get (1, 1) [] (response_empty 500) "date") :=
  (c7_drop_emits_500
    { secure := false, method := .get, path := "/", http_version := (1, 1),
      headers := [], body_length := none, must_send_continue := false,
      data_reader := some .emptyReader, writer_present := true } "date"
    rfl).1

/-- Correctness of the drain loop: when the upstream holds at least `n`
bytes and every read call delivers at least one byte, the loop fills the
buffer with exactly the next `n - offset` upstream bytes. -/
theorem drain_go_ok (data : List Char) (sched : Nat → Nat) (n : Nat)
    (hsched : ∀ i, 1 ≤ sched i) (hdata : n ≤ data.length) :
    ∀ fuel i offset, offset ≤ n → n - offset < fuel →
      drain_go data sched n fuel i offset =
        .ok ((data.drop offset).take (n - offset)) := by
  intro fuel
  induction fuel with
  | zero => intro i offset _ hlt; omega
  | succ fuel ih =>
    intro i offset hoff hlt
    by_cases heq : offset = n
    · subst heq
      simp [drain_go]
    · have hofflt : offset < n := by omega
      have hr1 : 1 ≤ min (sched i) (min (n - offset) (data.length - offset)) := by
        have := hsched i
        have h1 : 1 ≤ n - offset := by omega
        have h2 : 1 ≤ data.length - offset := by omega
        omega
      have hrle : min (sched i) (min (n - offset) (data.length - offset)) ≤
          n - offset := by
        have := Nat.min_le_right (n - offset) (data.length - offset)
        have := Nat.min_le_right (sched i)
          (min (n - offset) (data.length - offset))
        omega
      set r := min (sched i) (min (n - offset) (data.length - offset)) with hr
      have hrec := ih (i + 1) (offset + r) (by omega) (by omega)
      rw [drain_go]
      simp only [if_neg heq, if_neg (by omega : ¬r = 0)]
      rw [← hr, hrec]
      have hdrop : data.drop (offset + r) = (data.drop offset).drop r := by
        rw [List.drop_drop, Nat.add_comm]
      rw [hdrop]
      have htake : (data.drop offset).take r ++
          ((data.drop offset).drop r).take (n - (offset + r)) =
          (data.drop offset).take (n - offset) := by
        rw [← List.take_add]
        congr 1
        omega
      exact congrArg Except.ok htake

/-- Correctness of `drain_body`: the drained buffer is the first `n`
upstream bytes. -/
theorem drain_body_ok (data : List Char) (sched : Nat → Nat) (n : Nat)
    (hsched : ∀ i, 1 ≤ sched i) (hdata : n ≤ data.length) :
    drain_body data sched n = .ok (data.take n) := by
  have h := drain_go_ok data sched n hsched hdata (n + 1) 0 0 (by omega)
    (by omega)
  simpa [drain_body] using h

/-- Claim C5, counterexample: the request headers `Content-Length: 3` and
`Transfer-Encoding: chunked` satisfy the claim's conditions (a
`Content-Length` header with value 3 ≤ 1024, no `Expect: 100-continue`,
three upstream bytes available), yet construction drains nothing into
memory: the body reader is the chunked decoder over the raw stream, not
an in-memory buffer holding the three bytes. -/
theorem c5_counterexample :
    (new_request false .get "/" (1, 1)
        [{ field := "Content-Length", value := "3" },
         { field := "Transfer-Encoding", value := "chunked" }]
        "abc".toList (fun _ => 1)).map
      (fun r => r.data_reader.bind buffered_contents) = .ok none ∧
    (Except.ok none : Except RequestCreationError (Option (List Char))) ≠
      .ok (some "abc".toList) := by
  decide

/-- Claim C5 as amended: for every request carrying a `Content-Length`
header parsing to `n ≤ 1024`, **no `Expect` header, no `Transfer-Encoding`
header, and no `Connection` header containing `upgrade`**, provided the
upstream supplies at least `n` bytes (every read delivering at least one
byte), construction drains exactly the first `n` upstream bytes into an
in-memory buffer, and reading that buffer yields exactly those `n` bytes
followed by EOF. -/
theorem c5_amended_small_body_drained (secure : Bool) (m : Method)
    (p : String) (v : Nat × Nat) (headers : List Header) (data : List Char)
    (sched : Nat → Nat) (n : Nat)
    (hTE : find_header headers "Transfer-Encoding" = none)
    (hEx : find_header headers "Expect" = none)
    (hCU : connection_upgrade_of headers = false)
    (hCL : (find_header headers "Content-Length").bind
      (fun h => parse_usize h.value) = some n)
    (hn : n ≤ 1024) (hdata : n ≤ data.length)
    (hsched : ∀ i, 1 ≤ sched i) :
    (new_request secure m p v headers data sched).map
      (fun r => r.data_reader.bind buffered_contents) =
      .ok (some (data.take n)) ∧
    (data.take n).length = n ∧
    cursor_read (data.take n) 0 n = data.take n ∧
    (∀ len, cursor_read (data.take n) n len = []) := by
  have hlen : (data.take n).length = n := by
    rw [List.length_take]
    omega
  refine ⟨?_, hlen, ?_, fun len => ?_⟩
  · by_cases h0 : n = 0
    · subst h0
      simp [new_request, hTE, expects_continue_of, hEx, hCL, reader_of, hCU,
        buffered_contents, Except.map]
    · simp [new_request, hTE, expects_continue_of, hEx, hCL, reader_of, hCU,
        h0, hn, drain_body_ok data sched n hsched hdata, buffered_contents,
        Except.map]
  · simp [cursor_read, List.take_of_length_le (le_of_eq hlen)]
  · simp [cursor_read, List.drop_of_length_le (le_of_eq hlen)]

/-- Witness for `c5_amended_small_body_drained`: a `Content-Length: 5`
request over the upstream bytes `helloXYZ` delivered two bytes per read
drains exactly `hello`. -/
theorem c5_amended_small_body_drained_witness :
    (new_request false .get "/" (1, 1)
        [{ field := "Content-Length", value := "5" }]
        "helloXYZ".toList (fun _ => 2)).map
      (fun r => r.data_reader.bind buffered_contents) =
      .ok (some "hello".toList) := by
  have h := (c5_amended_small_body_drained false .get "/" (1, 1)
    [{ field := "Content-Length", value := "5" }] "helloXYZ".toList
    (fun _ => 2) 5 (by decide) (by decide) (by decide) (by decide)
    (by decide) (by decide) (fun i => (show (1 : Nat) ≤ 2 by decide))).1
  simpa using h

/-- Shape of the reader chosen when there is no `Connection: upgrade`, no
`Transfer-Encoding`, and a parsed `Content-Length` of `n`: one of the
three `Length`-framing readers. -/
theorem reader_of_content_length_shape (n : Nat) (expects : Bool)
    (data : List Char) (sched : Nat → Nat) (r : BodyReader)
    (h : reader_of false (some n) false expects data sched = .ok r) :
    (∃ bytes, r = .buffered bytes) ∨ r = .emptyReader ∨
      r = .equalReader n data := by
  unfold reader_of at h
  simp only [Bool.false_eq_true, if_false] at h
  split at h
  · cases h
    exact Or.inr (Or.inl rfl)
  · split at h
    · cases hd : drain_body data sched n with
      | error e => rw [hd] at h; cases h
      | ok buf =>
        rw [hd] at h
        cases h
        exact Or.inl ⟨buf, rfl⟩
    · cases h
      exact Or.inr (Or.inr rfl)

/-- Claim C1, counterexample: with both `Transfer-Encoding: chunked` and
`Connection: upgrade` present, the claim's rule (Transfer-Encoding wins
over everything) demands `Chunked` framing, but `new_request` checks
`Connection: upgrade` first and keeps the whole stream: the framing is
`Upgrade`. -/
theorem c1_counterexample :
    (new_request false .get "/" (1, 1)
        [{ field := "Transfer-Encoding", value := "chunked" },
         { field := "Connection", value := "upgrade" }] [] (fun _ => 1)).map
      framing_of = .ok .upgrade ∧
    claim_framing_te_first
      [{ field := "Transfer-Encoding", value := "chunked" },
       { field := "Connection", value := "upgrade" }] = .chunked ∧
    Framing.upgrade ≠ Framing.chunked := by
  decide

/-- Claim C1 as amended: for every successfully constructed request, the
body framing follows the precedence **`Connection: upgrade` first**, then
`Transfer-Encoding` (meaning chunked), then `Content-Length: n` (meaning
`Length n`), then no body; and whenever a `Transfer-Encoding` header is
present, `body_length()` is `None` (`Content-Length` is ignored) even
though the framing may be `Upgrade` rather than `Chunked`. -/
theorem c1_amended_framing (secure : Bool) (m : Method) (p : String)
    (v : Nat × Nat) (headers : List Header) (data : List Char)
    (sched : Nat → Nat) (req : Request)
    (h : new_request secure m p v headers data sched = .ok req) :
    framing_of req = claim_framing_upgrade_first headers ∧
    req.body_length = request_content_length headers := by
  cases hE : expects_continue_of headers with
  | error e =>
    unfold new_request at h
    rw [hE] at h
    cases h
  | ok expects =>
    unfold new_request at h
    rw [hE] at h
    by_cases hcu : connection_upgrade_of headers = true
    · simp only [reader_of, hcu, if_true] at h
      cases h
      simp [framing_of, claim_framing_upgrade_first, hcu,
        request_content_length, Option.isSome_map]
    · rw [Bool.not_eq_true] at hcu
      cases hte : find_header headers "Transfer-Encoding" with
      | some hdr =>
        rw [hte] at h
        simp only [Option.map_some', Option.isSome_some, if_true,
          reader_of, hcu, Bool.false_eq_true, if_false] at h
        cases h
        simp [framing_of, claim_framing_upgrade_first, hcu, hte,
          request_content_length]
      | none =>
        rw [hte] at h
        simp only [Option.map_none', Option.isSome_none,
          Bool.false_eq_true, if_false, hcu] at h
        cases hcl : (find_header headers "Content-Length").bind
            (fun hd => parse_usize hd.value) with
        | none =>
          rw [hcl] at h
          simp only [reader_of, hcu, Bool.false_eq_true, if_false] at h
          cases h
          simp [framing_of, claim_framing_upgrade_first, hcu, hte,
            request_content_length, hcl]
        | some n =>
          rw [hcl] at h
          cases hR : reader_of false (some n) false expects data sched with
          | error e2 => rw [hR] at h; cases h
          | ok r =>
            rw [hR] at h
            cases h
            rcases reader_of_content_length_shape n expects data sched r hR
              with ⟨bytes, rfl⟩ | rfl | rfl <;>
              simp [framing_of, claim_framing_upgrade_first, hcu, hte,
                request_content_length, hcl]

/-- Witness for `c1_amended_framing`: a plain `Content-Length: 5` request
has `Length 5` framing and `body_length` 5. -/
theorem c1_amended_framing_witness :
    framing_of
      { secure := false, method := .get, path := "/",
        http_version := (1, 1),
        headers := [{ field := "Content-Length", value := "5" }],
        body_length := some 5, must_send_continue := false,
        data_reader := some (.buffered "hello".toList),
        writer_present := true } =
      claim_framing_upgrade_first
        [{ field := "Content-Length", value := "5" }] := by
  have h := c1_amended_framing false .get "/" (1, 1)
    [{ field := "Content-Length", value := "5" }] "helloXYZ".toList
    (fun _ => 2)
    { secure := false, method := .get, path := "/", http_version := (1, 1),
      headers := [{ field := "Content-Length", value := "5" }],
      body_length := some 5, must_send_continue := false,
      data_reader := some (.buffered "hello".toList),
      writer_present := true }
    (by decide)
  simpa using h.1

/-- Indexing into a trace extended by one event. -/
theorem get_append_one (tr : List SlotEvent) (e : SlotEvent)
    (i : Fin (tr ++ [e]).length) :
    (tr ++ [e]).get i =
      if h : (i : Nat) < tr.length then tr.get ⟨i, h⟩ else e := by
  by_cases h : (i : Nat) < tr.length
  · rw [dif_pos h, List.get_eq_getElem, List.get_eq_getElem,
      List.getElem_append_left h]
  · rw [dif_neg h, List.get_eq_getElem,
      List.getElem_append_right (Nat.le_of_not_lt h)]
    have hone : ∀ (j : Nat) (hj : j < ([e] : List SlotEvent).length),
        ([e] : List SlotEvent)[j] = e := by
      intro j hj
      have hj1 : j < 1 := by simpa using hj
      have hj0 : j = 0 := by omega
      subst hj0
      rfl
    exact hone _ _

/-- Claim C2: in every trace the `SequentialWriter` mechanism can produce,
all socket writes of slot `k` come strictly before all socket writes of
slot `k + 1` — the bytes of the `k`-th response appear on the socket
strictly after the bytes of the `(k-1)`-th response, regardless of the
order in which `respond` was called on the pipelined requests (the order
of the drop events is unconstrained).  Moreover dropping a slot releases
the next one unconditionally: once `dropped k` is in the trace, extending
it with `write (k + 1)` is always valid (provided slot `k + 1` was not
itself already dropped, i.e. it is still usable at all). -/
theorem c2_pipelined_write_order (tr : List SlotEvent) (hv : ValidTrace tr) :
    (∀ (k : Nat) (i j : Fin tr.length),
      tr.get i = .write k → tr.get j = .write (k + 1) → i < j) ∧
    (∀ k : Nat,
      (∃ d : Fin tr.length, tr.get d = .dropped k) →
      (∀ e : Fin tr.length,
        ¬((tr.get e).isDrop = true ∧ (tr.get e).slot = k + 1)) →
      ValidTrace (tr ++ [.write (k + 1)])) := by
  obtain ⟨hA, hB⟩ := hv
  constructor
  · intro k i j hi hj
    have hjw : (tr.get j).isDrop = false := by rw [hj]; rfl
    have hjs : (tr.get j).slot = k + 1 := by rw [hj]; rfl
    obtain ⟨d, hdj, hd⟩ := hB j hjw (by rw [hjs]; omega)
    rw [hjs] at hd
    simp only [Nat.add_sub_cancel] at hd
    rcases lt_trichotomy i d with hid | hid | hid
    · exact lt_trans hid hdj
    · exfalso
      rw [hid, hd] at hi
      cases hi
    · exact absurd (by rw [hd, hi]; rfl) (hA d i hid (by rw [hd]; rfl))
  · rintro k ⟨d, hd⟩ hnod
    constructor
    · intro i j hij
      simp only [get_append_one]
      by_cases hi : (i : Nat) < tr.length
      · rw [dif_pos hi]
        by_cases hj : (j : Nat) < tr.length
        · rw [dif_pos hj]
          exact hA ⟨i, hi⟩ ⟨j, hj⟩ (Fin.mk_lt_mk.mpr (Fin.lt_def.mp hij))
        · rw [dif_neg hj]
          intro hidrop hslot
          exact hnod ⟨i, hi⟩ ⟨hidrop, hslot⟩
      · rw [dif_neg hi]
        intro hidrop
        cases hidrop
    · intro j
      simp only [get_append_one]
      by_cases hj : (j : Nat) < tr.length
      · rw [dif_pos hj]
        intro hw hs
        obtain ⟨i, hij, hieq⟩ := hB ⟨j, hj⟩ hw hs
        refine ⟨⟨(i : Nat), by
          have := i.isLt
          simp only [List.length_append, List.length_singleton]
          omega⟩, ?_, ?_⟩
        · exact Fin.lt_def.mpr (Fin.lt_def.mp hij)
        · rw [dif_pos i.isLt]
          exact hieq
      · rw [dif_neg hj]
        intro hw hs
        refine ⟨⟨(d : Nat), by
          have := d.isLt
          simp only [List.length_append, List.length_singleton]
          omega⟩, ?_, ?_⟩
        · have hjlt := j.isLt
          simp only [List.length_append, List.length_singleton] at hjlt
          have hdlt := d.isLt
          exact Fin.lt_def.mpr (show (d : Nat) < (j : Nat) by omega)
        · rw [dif_pos d.isLt]
          simpa using hd

/-- Witness for `c2_pipelined_write_order` at a concrete three-event
trace. -/
theorem c2_pipelined_write_order_witness :
    ValidTrace [SlotEvent.write 0, .dropped 0, .write 1] ∧
    (⟨0, by decide⟩ : Fin 3) < ⟨2, by decide⟩ := by
  have hv : ValidTrace [SlotEvent.write 0, .dropped 0, .write 1] := by decide
  exact ⟨hv, (c2_pipelined_write_order _ hv).1 0 ⟨0, by decide⟩ ⟨2, by decide⟩
    (by decide) (by decide)⟩

end TinyHttp
